import Mathlib

/-!
Shallow embedding of `src/cfgd.c` (mand-metropolisd configuration daemon).

The daemon's renderers are straight-line C functions whose only observable
effects are (a) whole-file writes of generated text artifacts and (b) shell
commands run through `system(3)`.  Each renderer is embedded as a pure
function from its configuration input (plus oracles for the parts of the
environment the C code consults: `fopen` success and `getpwnam`) to the
ordered list of effects it performs.  File contents, paths and command
lines are byte strings, modelled as `List Char`.

The struct types (`struct ntp_servers`, `struct interface`, ...) are
declared in `cfgd.h`, which is not part of the repository snapshot; their
fields are reconstructed from their uses in `cfgd.c` and from the spec's
data model (counted arrays become Lean lists; the `enabled` flag of the
NTP config is a boolean per the spec's `NtpConfig`).
-/

namespace Cfgd

/-- One observable effect of a renderer: a whole-file write (path, content)
performed via `fopen(path, "w")` + `fprintf`/`fputs` + `fclose`, or a shell
command line passed to `system(3)` via `vsystem`/`vasystem`. -/
inductive Ev where
  | write (path : List Char) (content : List Char)
  | cmd (line : List Char)
deriving DecidableEq, Repr

/-- Does the event write a file? -/
def Ev.isWrite : Ev → Bool
  | .write _ _ => true
  | .cmd _ => false

/-- Character membership in a byte string (models `strchr`-style lookups in
our metatheory; not itself from the source). -/
def hasCh (c : Char) : List Char → Bool
  | [] => false
  | d :: l => if d = c then true else hasCh c l

/-- Byte-string prefix test, used to speak about the clauses of a rendered
line (metatheory helper). -/
def begL : List Char → List Char → Bool
  | [], _ => true
  | _ :: _, [] => false
  | a :: as, b :: bs => if a = b then begL as bs else false

/-- Byte-string suffix test (metatheory helper). -/
def endL (s l : List Char) : Bool := begL s.reverse l.reverse

/-- Split a byte string at every occurrence of a separator character; the
separators are dropped and the (possibly empty) segments kept.  Used to
talk about the lines of a rendered file and the tokens of a rendered line. -/
def splitCh (sep : Char) : List Char → List (List Char)
  | [] => [[]]
  | c :: cs =>
    if c = sep then [] :: splitCh sep cs
    else
      match splitCh sep cs with
      | [] => [[c]]
      | l :: ls => (c :: l) :: ls

/-- Join a list of lines, terminating every line with a newline, exactly as
a sequence of `fprintf`/`fputs` calls whose format strings all end in
a newline produces. -/
def joinNl : List (List Char) → List Char
  | [] => []
  | l :: ls => l ++ '\n' :: joinNl ls

/-- The byte string printed by `printf`-style `%d` for a C `int`,
mirroring the decimal rendering (minus sign followed by base-10 digits). -/
def intChars : Int → List Char
  | .ofNat n => Nat.toDigits 10 n
  | .negSucc n => '-' :: Nat.toDigits 10 (n + 1)

/-- The `_ident` banner string `"cfgd v" VERSION` from cfgd.c line 53; the
build-time `VERSION` macro is fixed to an arbitrary version number here
(no claim depends on its value, only on it containing no newline). -/
def identStr : String := "cfgd v0.1"

/-- Embedding of `vasystem` (cfgd.c lines 76-86): the formatted command is
produced by `vsnprintf` into a fixed `char buf[1024]`, so the string that
reaches `system(3)` is the full expansion truncated to at most 1023 bytes
(one byte is reserved for the terminating NUL).  The argument is the
untruncated printf expansion. -/
def vasystem (l : List Char) : List Char := l.take 1023

/-- Target file of the NTP renderer (cfgd.c line 92). -/
def timesyncdConf : List Char := "/etc/systemd/timesyncd.conf".data

/-- Target file of the DNS renderer (cfgd.c line 120). -/
def resolvedConf : List Char := "/etc/systemd/resolved.conf".data

/-- `struct ntp_servers` (declared in cfgd.h): an enabled flag and a counted
array of server strings; per the spec's `NtpConfig`, `enabled` is a bool. -/
structure ntp_servers where
  enabled : Bool
  server : List String
deriving DecidableEq, Repr

/-- The space-prefixed concatenation a loop of `fputc(' '); fputs(s)` over
a string list produces (cfgd.c lines 101-104 and 129-132 and 135-138). -/
def spJoin : List String → List Char
  | [] => []
  | s :: r => ' ' :: (s.data ++ spJoin r)

/-- Content of `/etc/systemd/timesyncd.conf` as written by `set_ntp_server`
(cfgd.c lines 97-104): header comment, a `[Time]` section opener, then one
`NTP =` line listing the servers space-separated, with no trailing
newline. -/
def ntpContent (servers : List String) : List Char :=
  "# AUTOGENERATED BY ".data ++ identStr.data ++ "\n[Time]".data
    ++ "\nNTP =".data ++ spJoin servers

/-- Embedding of `set_ntp_server` (cfgd.c lines 88-114).  `co` is the
`fopen(_, "w")` success oracle.  On open failure the function returns
immediately with no effects; on success it writes the file, stops
systemd-timesyncd, and toggles NTP via timedatectl (the bool printed
through `%d` as 1 or 0). -/
def set_ntp_server (co : List Char → Bool) (s : ntp_servers) : List Ev :=
  if co timesyncdConf then
    [Ev.write timesyncdConf (ntpContent s.server),
     Ev.cmd "systemctl stop systemd-timesyncd".data,
     Ev.cmd (vasystem ("timedatectl set-ntp ".data
       ++ (if s.enabled then ['1'] else ['0'])))]
  else []

/-- Content of `/etc/systemd/resolved.conf` as written by `set_dns`
(cfgd.c lines 125-138). -/
def dnsContent (search servers : List String) : List Char :=
  "# AUTOGENERATED BY ".data ++ identStr.data ++ "\n[Resolve]".data
    ++ "\nDNS =".data ++ spJoin servers
    ++ "\nDomains =".data ++ spJoin search

/-- Embedding of `set_dns` (cfgd.c lines 116-143). -/
def set_dns (co : List Char → Bool) (search servers : List String) : List Ev :=
  if co resolvedConf then
    [Ev.write resolvedConf (dnsContent search servers),
     Ev.cmd "systemctl reload-or-restart systemd-resolved".data]
  else []

/-- One SSH key entry of `struct auth_ssh_key_list` (fields per the uses in
cfgd.c lines 174-175: algorithm, key data, comment name). -/
structure ssh_key where
  algo : String
  data : String
  name : String
deriving DecidableEq, Repr

/-- Content of an authorized_keys file: one `algo data comment` line per key
(cfgd.c line 175). -/
def sshContent : List ssh_key → List Char
  | [] => []
  | k :: r => k.algo.data ++ ' ' :: k.data.data ++ ' ' :: k.name.data
      ++ '\n' :: sshContent r

/-- The single field of `struct passwd` consulted by `set_ssh_keys`:
`pw_dir`, which may be NULL (cfgd.c line 161). -/
structure passwd where
  pw_dir : Option String
deriving DecidableEq, Repr

/-- Write phase shared by all branches of `set_ssh_keys` (cfgd.c lines
170-177): if the destination opens, the file is fully replaced, otherwise
the function silently does nothing. -/
def sshWrite (co : List Char → Bool) (path : List Char) (list : List ssh_key) :
    List Ev :=
  if co path then [Ev.write path (sshContent list)] else []

/-- Embedding of `set_ssh_keys` (cfgd.c lines 145-181).  `getpw` is the
`getpwnam` oracle, `co` the `fopen` success oracle.  "root" and "netconfd"
map to fixed paths with no account lookup and no key-count check; any other
name goes through `getpwnam` (lookup failure, a NULL home directory, or an
empty key list each being a silent no-op) followed by a `mkdir -p` of the
`.ssh` directory.  `asprintf` failure (out of memory) is not modelled. -/
def set_ssh_keys (getpw : String → Option passwd) (co : List Char → Bool)
    (name : String) (list : List ssh_key) : List Ev :=
  if name = "root" then
    sshWrite co "/home/root/.ssh/authorized_keys".data list
  else if name = "netconfd" then
    sshWrite co "/etc/netconf/authorized_keys".data list
  else
    match getpw name with
    | none => []
    | some pw =>
      match pw.pw_dir with
      | none => []
      | some dir =>
        if list.length = 0 then []
        else
          Ev.cmd (vasystem ("mkdir -p ".data ++ dir.data ++ "/.ssh".data))
            :: sshWrite co (dir.data ++ "/.ssh/authorized_keys".data) list

/-- One user of `struct auth_list` (fields per cfgd.c lines 189-192). -/
structure auth_user where
  name : String
  password : String
  ssh : List ssh_key
deriving DecidableEq, Repr

/-- Embedding of `set_authentication` (cfgd.c lines 183-194): delegates to
`set_ssh_keys` for every user in order. -/
def set_authentication (getpw : String → Option passwd) (co : List Char → Bool) :
    List auth_user → List Ev
  | [] => []
  | u :: r => set_ssh_keys getpw co u.name u.ssh
      ++ set_authentication getpw co r

/-- One address or neighbor entry: the `.ip[j]` pairs of cfgd.c lines
229-235 and 257-265 (`address` is the IP, `value` the prefix length or the
MAC address). -/
structure ip_entry where
  address : String
  value : String
deriving DecidableEq, Repr

/-- Per-family interface data as used by `set_if_addr`/`set_if_neigh`:
MTU (a C `int`), address list, static-neighbor list, forwarding flag. -/
structure af_info where
  mtu : Int
  addr : List ip_entry
  neigh : List ip_entry
  forwarding : Bool
deriving DecidableEq, Repr

/-- `struct interface` as used in cfgd.c: name, DHCP enable flag
(`iface->dhcp.enabled`), and the two address families. -/
structure interface where
  name : String
  dhcp_enabled : Bool
  ipv4 : af_info
  ipv6 : af_info
deriving DecidableEq, Repr

/-- The MTU written by `set_if_addr`: the ternary
`ipv4.mtu > ipv6.mtu ? ipv4.mtu : ipv6.mtu` of cfgd.c line 226. -/
def selMtu (i : interface) : Int :=
  if i.ipv4.mtu > i.ipv6.mtu then i.ipv4.mtu else i.ipv6.mtu

/-- One `Address=ip/prefix` line (cfgd.c lines 230-231 and 234-235). -/
def addrLine (e : ip_entry) : List Char :=
  "Address=".data ++ e.address.data ++ "/".data ++ e.value.data

/-- The IP-forwarding clause of a per-interface file (cfgd.c lines
237-242): `yes` if both families forward, the single family name if only
one does, and no line at all if neither does. -/
def fwdLines (i : interface) : List (List Char) :=
  if i.ipv4.forwarding && i.ipv6.forwarding then ["IPForward=yes".data]
  else if i.ipv4.forwarding then ["IPForward=ipv4".data]
  else if i.ipv6.forwarding then ["IPForward=ipv6".data]
  else []

/-- The seven lines of the fprintf template of cfgd.c lines 218-227:
header comment, `[Match]/Name`, `[Link]/MTUBytes`, `[Network]/DHCP`. -/
def ifaceFixedLines (i : interface) : List (List Char) :=
  ["# AUTOGENERATED BY ".data ++ identStr.data,
   "[Match]".data,
   "Name=".data ++ i.name.data,
   "[Link]".data,
   "MTUBytes=".data ++ intChars (selMtu i),
   "[Network]".data,
   "DHCP=".data ++ (if i.dhcp_enabled then "yes" else "no").data]

/-- The lines of one per-interface `.network` file, in emission order
(cfgd.c lines 218-242): the fprintf template, then one `Address=` line per
IPv4 then IPv6 address, then the forwarding clause.  Every emitted line
ends in a newline, so the file content is `joinNl` of this list. -/
def ifaceLines (i : interface) : List (List Char) :=
  ifaceFixedLines i
  ++ i.ipv4.addr.map addrLine
  ++ i.ipv6.addr.map addrLine
  ++ fwdLines i

/-- Full content of one per-interface `.network` file. -/
def ifaceContent (i : interface) : List Char := joinNl (ifaceLines i)

/-- The directory holding the generated per-interface files
(cfgd.c lines 203 and 210-211); 21 characters long. -/
def netDir : List Char := "/etc/systemd/network/".data

/-- The path of an interface's artifact file, built by
`snprintf(systemd_cfg, PATH_MAX, "/etc/systemd/network/%s.network", name)`
(cfgd.c lines 210-211): the expansion truncated to `PATH_MAX - 1 = 4095`
bytes. -/
def ifacePath (name : String) : List Char :=
  (netDir ++ name.data ++ ".network".data).take 4095

/-- The glob-delete command of cfgd.c line 203. -/
def rmNetworksCmd : List Char := "rm -f /etc/systemd/network/*.network".data

/-- Basename check for the glob `*.network`: the `*` matches no slash and,
per POSIX pathname expansion, no leading dot (globs skip hidden files);
the basename must carry the `.network` suffix. -/
def baseOk : List Char → Bool
  | [] => false
  | c :: rest =>
    if c = '.' then false
    else if hasCh '/' (c :: rest) then false
    else endL ".network".data (c :: rest)

/-- POSIX shell pathname expansion of `/etc/systemd/network/*.network`
(the argument of the glob-delete of cfgd.c line 203): a path matches when
it lies directly inside the network directory and its basename (the part
after the 21-character directory prefix) passes `baseOk`. -/
def isGlobMatch (p : List Char) : Bool :=
  begL netDir p && baseOk (p.drop 21)

/-- Loop body of `set_if_addr` (cfgd.c lines 205-245): writes one file per
interface; when an `fopen` fails the C function returns immediately, so
later interfaces are not written and the final networkd reload
(cfgd.c line 247) is not issued. -/
def ifaceLoop (co : List Char → Bool) : List interface → List Ev
  | [] => [Ev.cmd "systemctl reload-or-restart systemd-networkd".data]
  | i :: rest =>
    if co (ifacePath i.name) then
      Ev.write (ifacePath i.name) (ifaceContent i) :: ifaceLoop co rest
    else []

/-- Embedding of `set_if_addr` (cfgd.c lines 196-248): glob-delete all
previously generated `.network` files, then write one file per interface,
then reload systemd-networkd (skipped, with the rest of the loop, if any
`fopen` fails). -/
def set_if_addr (co : List Char → Bool) (info : List interface) : List Ev :=
  Ev.cmd rmNetworksCmd :: ifaceLoop co info

/-- The system-wide permanent-neighbor flush command (cfgd.c line 252). -/
def flushNeighCmd : List Char := "ip neigh flush nud permanent".data

/-- One `ip neigh replace` command (cfgd.c lines 258-260 and 263-265),
built through `vasystem` and hence truncated at 1023 bytes. -/
def replCmd (ifname : String) (e : ip_entry) : Ev :=
  Ev.cmd (vasystem ("ip neigh replace ".data ++ e.address.data
    ++ " lladdr ".data ++ e.value.data
    ++ " nud permanent dev ".data ++ ifname.data))

/-- The per-entry replace commands of `set_if_neigh` (cfgd.c lines
254-266): for every interface in order, all IPv4 entries then all IPv6
entries. -/
def neighCmds : List interface → List Ev
  | [] => []
  | i :: rest =>
      i.ipv4.neigh.map (replCmd i.name)
        ++ i.ipv6.neigh.map (replCmd i.name)
        ++ neighCmds rest

/-- Embedding of `set_if_neigh` (cfgd.c lines 250-267): one system-wide
flush of permanent entries, then the per-entry replace commands. -/
def set_if_neigh (info : List interface) : List Ev :=
  Ev.cmd flushNeighCmd :: neighCmds info

/-- The filesystem as a partial map from paths to file contents. -/
def FS : Type := List Char → Option (List Char)

/-- Effect of one event on the filesystem: a write replaces the file at its
path; of the shell commands only the glob-delete of cfgd.c line 203
touches the files modelled here (service reloads, the neighbor commands
and `mkdir -p` do not alter any regular file). -/
def runEv (fs : FS) : Ev → FS
  | .write p c => fun q => if q = p then some c else fs q
  | .cmd c =>
    if c = rmNetworksCmd then fun q => if isGlobMatch q then none else fs q
    else fs

/-- Replay a trace of events over the filesystem, in order. -/
def runTrace (fs : FS) : List Ev → FS
  | [] => fs
  | e :: t => runTrace (runEv fs e) t

/-- Modelled from the spec: the reconciliation orchestrator lives in
`comm.c`, which is absent from the repository snapshot; per the spec's
`ConfigSnapshot` the root aggregate carries the NTP, DNS, interface and
authentication sub-trees. -/
structure ConfigSnapshot where
  ntp : ntp_servers
  dns_search : List String
  dns_servers : List String
  interfaces : List interface
  auth : List auth_user
deriving DecidableEq, Repr

/-- Modelled from the spec: one reconciliation pass dispatches the
snapshot's sub-trees to the renderers of cfgd.c (the dispatch itself is in
the absent `comm.c`; the renderer order is fixed here, and no claim
depends on the relative order of distinct renderers).  The emitted trace
depends only on the snapshot and the environment oracles, never on the
filesystem. -/
def snapshotTrace (getpw : String → Option passwd) (co : List Char → Bool)
    (cfg : ConfigSnapshot) : List Ev :=
  set_ntp_server co cfg.ntp
    ++ set_dns co cfg.dns_search cfg.dns_servers
    ++ set_authentication getpw co cfg.auth
    ++ set_if_addr co cfg.interfaces
    ++ set_if_neigh cfg.interfaces

/-- One reconciliation pass: the resulting filesystem and the trace of
commands and writes it issued. -/
def applySnapshot (getpw : String → Option passwd) (co : List Char → Bool)
    (cfg : ConfigSnapshot) (fs : FS) : FS × List Ev :=
  (runTrace fs (snapshotTrace getpw co cfg), snapshotTrace getpw co cfg)

/-- The interface whose IPv4 and IPv6 MTU values are exchanged, everything
else unchanged. -/
def mtuSwap (i : interface) : interface :=
  { i with ipv4 := { i.ipv4 with mtu := i.ipv6.mtu },
           ipv6 := { i.ipv6 with mtu := i.ipv4.mtu } }

end Cfgd

namespace Cfgd

/-! ### Metatheory: byte-string splitting and membership -/

theorem hasCh_append (c : Char) (a b : List Char) :
    hasCh c (a ++ b) = (hasCh c a || hasCh c b) := by
  induction a with
  | nil => simp [hasCh]
  | cons d l ih =>
    simp only [List.cons_append, hasCh]
    by_cases h : d = c <;> simp [h, ih]

theorem hasCh_eq_false_of_forall {c : Char} {l : List Char}
    (h : ∀ d ∈ l, d ≠ c) : hasCh c l = false := by
  induction l with
  | nil => rfl
  | cons d t ih =>
    simp only [hasCh]
    rw [if_neg (h d (List.mem_cons_self d t))]
    exact ih fun d hd => h d (List.mem_cons_of_mem _ hd)

theorem splitCh_ne_nil (sep : Char) (l : List Char) : splitCh sep l ≠ [] := by
  induction l with
  | nil => simp [splitCh]
  | cons c cs ih =>
    simp only [splitCh]
    by_cases h : c = sep
    · simp [h]
    · rw [if_neg h]
      cases hs : splitCh sep cs with
      | nil => exact absurd hs ih
      | cons x xs => simp

theorem splitCh_cons_sep (sep : Char) (b : List Char) :
    splitCh sep (sep :: b) = [] :: splitCh sep b := by
  simp [splitCh]

theorem splitCh_append_no_sep {sep : Char} {a : List Char}
    (h : hasCh sep a = false) (b : List Char) {l : List Char}
    {ls : List (List Char)} (hb : splitCh sep b = l :: ls) :
    splitCh sep (a ++ b) = (a ++ l) :: ls := by
  induction a with
  | nil => simpa using hb
  | cons c t ih =>
    simp only [hasCh] at h
    by_cases hc : c = sep
    · rw [if_pos hc] at h; exact absurd h (by simp)
    · rw [if_neg hc] at h
      simp only [List.cons_append, splitCh, if_neg hc]
      rw [show t.append b = t ++ b from rfl, ih h]

theorem splitCh_no_sep {sep : Char} {a : List Char}
    (h : hasCh sep a = false) : splitCh sep a = [a] := by
  have := @splitCh_append_no_sep sep a h [] [] [] rfl
  simpa using this

theorem splitCh_joinNl {ls : List (List Char)}
    (h : ∀ l ∈ ls, hasCh '\n' l = false) :
    splitCh '\n' (joinNl ls) = ls ++ [[]] := by
  induction ls with
  | nil => rfl
  | cons l t ih =>
    have hl : hasCh '\n' l = false := h l (List.mem_cons_self l t)
    have ht : splitCh '\n' (joinNl t) = t ++ [[]] :=
      ih fun x hx => h x (List.mem_cons_of_mem _ hx)
    simp only [joinNl]
    rw [splitCh_append_no_sep hl ('\n' :: joinNl t)
      (by rw [splitCh_cons_sep, ht])]
    simp

theorem begL_self_append (p t : List Char) : begL p (p ++ t) = true := by
  induction p with
  | nil => rfl
  | cons c r ih => simp [begL, ih]

theorem endL_append_self (a s : List Char) : endL s (a ++ s) = true := by
  unfold endL
  rw [List.reverse_append]
  exact begL_self_append s.reverse a.reverse

/-! ### Metatheory: decimal digits contain no newline -/

theorem digitChar_ne_nl {n : Nat} (h : n < 10) : Nat.digitChar n ≠ '\n' := by
  interval_cases n <;> decide

theorem toDigitsCore_ne_nl :
    ∀ (fuel n : Nat) (ds : List Char), (∀ c ∈ ds, c ≠ '\n') →
      ∀ c ∈ Nat.toDigitsCore 10 fuel n ds, c ≠ '\n' := by
  intro fuel
  induction fuel with
  | zero => intro n ds hds; simpa [Nat.toDigitsCore] using hds
  | succ f ih =>
    intro n ds hds c hc
    simp only [Nat.toDigitsCore] at hc
    have hdig : Nat.digitChar (n % 10) ≠ '\n' :=
      digitChar_ne_nl (Nat.mod_lt _ (by decide))
    by_cases h : n / 10 = 0
    · rw [if_pos h] at hc
      rcases List.mem_cons.mp hc with h1 | h1
      · rw [h1]; exact hdig
      · exact hds c h1
    · rw [if_neg h] at hc
      refine ih (n / 10) _ ?_ c hc
      intro d hd
      rcases List.mem_cons.mp hd with h1 | h1
      · rw [h1]; exact hdig
      · exact hds d h1

theorem intChars_no_nl (m : Int) : hasCh '\n' (intChars m) = false := by
  apply hasCh_eq_false_of_forall
  intro d hd
  cases m with
  | ofNat n =>
    exact toDigitsCore_ne_nl (n + 1) n [] (by simp) d hd
  | negSucc n =>
    simp only [intChars] at hd
    rcases List.mem_cons.mp hd with h1 | h1
    · rw [h1]; decide
    · exact toDigitsCore_ne_nl (n + 2) (n + 1) [] (by simp) d h1

end Cfgd

namespace Cfgd

/-! ### Lines of a rendered per-interface file -/

theorem fwdLines_no_nl (i : interface) :
    ∀ l ∈ fwdLines i, hasCh '\n' l = false := by
  intro l hl
  unfold fwdLines at hl
  split_ifs at hl <;> simp at hl <;> (rw [hl]; decide)

theorem addrLine_no_nl {e : ip_entry}
    (ha : hasCh '\n' e.address.data = false)
    (hv : hasCh '\n' e.value.data = false) :
    hasCh '\n' (addrLine e) = false := by
  unfold addrLine
  rw [hasCh_append, hasCh_append, hasCh_append, ha, hv]
  decide

theorem ifaceLines_no_nl {i : interface}
    (hn : hasCh '\n' i.name.data = false)
    (h4 : ∀ e ∈ i.ipv4.addr,
      hasCh '\n' e.address.data = false ∧ hasCh '\n' e.value.data = false)
    (h6 : ∀ e ∈ i.ipv6.addr,
      hasCh '\n' e.address.data = false ∧ hasCh '\n' e.value.data = false) :
    ∀ l ∈ ifaceLines i, hasCh '\n' l = false := by
  intro l hl
  unfold ifaceLines at hl
  rcases List.mem_append.mp hl with hl' | hfwd
  rcases List.mem_append.mp hl' with hl'' | h6m
  rcases List.mem_append.mp hl'' with hfix | h4m
  · unfold ifaceFixedLines at hfix
    simp only [List.mem_cons, List.not_mem_nil, or_false] at hfix
    rcases hfix with rfl | rfl | rfl | rfl | rfl | rfl | rfl
    · decide
    · decide
    · rw [hasCh_append, hn]; decide
    · decide
    · rw [hasCh_append, intChars_no_nl]; decide
    · decide
    · rw [hasCh_append]
      have hd : hasCh '\n' ((if i.dhcp_enabled then "yes" else "no").data)
          = false := by
        cases i.dhcp_enabled <;> decide
      rw [hd]; decide
  · obtain ⟨e, he, rfl⟩ := List.mem_map.mp h4m
    exact addrLine_no_nl (h4 e he).1 (h4 e he).2
  · obtain ⟨e, he, rfl⟩ := List.mem_map.mp h6m
    exact addrLine_no_nl (h6 e he).1 (h6 e he).2
  · exact fwdLines_no_nl i l hfwd

theorem ifaceContent_lines {i : interface}
    (hn : hasCh '\n' i.name.data = false)
    (h4 : ∀ e ∈ i.ipv4.addr,
      hasCh '\n' e.address.data = false ∧ hasCh '\n' e.value.data = false)
    (h6 : ∀ e ∈ i.ipv6.addr,
      hasCh '\n' e.address.data = false ∧ hasCh '\n' e.value.data = false) :
    splitCh '\n' (ifaceContent i) = ifaceLines i ++ [[]] :=
  splitCh_joinNl (ifaceLines_no_nl hn h4 h6)

theorem filter_ifaceLines (i : interface) :
    (ifaceLines i ++ [[]]).filter (fun l => begL "IPForward=".data l)
      = fwdLines i := by
  unfold ifaceLines
  simp only [List.append_assoc, List.filter_append]
  have hfix : (ifaceFixedLines i).filter (fun l => begL "IPForward=".data l)
      = [] := rfl
  have haddr : ∀ v : List ip_entry,
      (v.map addrLine).filter (fun l => begL "IPForward=".data l) = [] := by
    intro v
    rw [List.filter_eq_nil_iff]
    intro a ha
    obtain ⟨e, _, rfl⟩ := List.mem_map.mp ha
    intro hcontra
    have : begL "IPForward=".data (addrLine e) = false := rfl
    rw [this] at hcontra
    cases hcontra
  have hfwd : (fwdLines i).filter (fun l => begL "IPForward=".data l)
      = fwdLines i := by
    unfold fwdLines
    split_ifs <;> rfl
  rw [hfix, haddr, haddr, hfwd]
  simp only [List.nil_append, List.filter]
  rw [show begL "IPForward=".data ([] : List Char) = false from rfl]
  simp

end Cfgd

namespace Cfgd

theorem selMtu_swap (i : interface) : selMtu (mtuSwap i) = selMtu i := by
  simp only [selMtu, mtuSwap]
  split_ifs <;> omega

theorem selMtu_eq_max (i : interface) :
    selMtu i = max i.ipv4.mtu i.ipv6.mtu := by
  unfold selMtu
  rw [max_def]
  split_ifs <;> omega

/-- C1: for every interface, the lines of the rendered per-interface file
that carry the IP-forwarding clause are exactly `IPForward=yes` when both
families forward, `IPForward=ipv4` (resp. `ipv6`) when only that family
forwards, and there is no `IPForward` line at all when neither forwards.
The side conditions say the interface name and the rendered address fields
contain no newline, so that the file's line structure is well defined. -/
theorem ipforward_clause (i : interface)
    (hn : hasCh '\n' i.name.data = false)
    (h4 : ∀ e ∈ i.ipv4.addr,
      hasCh '\n' e.address.data = false ∧ hasCh '\n' e.value.data = false)
    (h6 : ∀ e ∈ i.ipv6.addr,
      hasCh '\n' e.address.data = false ∧ hasCh '\n' e.value.data = false) :
    (splitCh '\n' (ifaceContent i)).filter (fun l => begL "IPForward=".data l)
      = (if i.ipv4.forwarding && i.ipv6.forwarding then ["IPForward=yes".data]
         else if i.ipv4.forwarding then ["IPForward=ipv4".data]
         else if i.ipv6.forwarding then ["IPForward=ipv6".data]
         else []) := by
  rw [ifaceContent_lines hn h4 h6, filter_ifaceLines]
  rfl

/-- Witness for C1 at a concrete interface with both families forwarding. -/
theorem ipforward_clause_w :
    (splitCh '\n' (ifaceContent
        ⟨"eth0", false, ⟨1500, [⟨"10.0.0.1", "24"⟩], [], true⟩,
          ⟨1492, [], [], true⟩⟩)).filter
          (fun l => begL "IPForward=".data l)
      = ["IPForward=yes".data] :=
  ipforward_clause _ (by decide) (by decide) (by decide)

/-- C6: MTU selection is commutative under swapping the two family MTU
values: exchanging `ipv4.mtu` and `ipv6.mtu` leaves the rendered file
byte-identical (in particular its `MTUBytes=` value), and the rendered
value is the larger of the two (either on a tie, since they are equal). -/
theorem mtu_swap_commutative (i : interface) :
    ifaceContent (mtuSwap i) = ifaceContent i
      ∧ selMtu i = max i.ipv4.mtu i.ipv6.mtu := by
  constructor
  · show joinNl (ifaceLines (mtuSwap i)) = joinNl (ifaceLines i)
    unfold ifaceLines ifaceFixedLines
    rw [selMtu_swap]
    rfl
  · exact selMtu_eq_max i

/-- C3: when the target file opens, the NTP renderer writes the file, then
stops systemd-timesyncd (the restart trigger: the subsequent toggle starts
it again with fresh configuration), then issues the timedatectl
enable/disable toggle carrying the `enabled` flag; the stop strictly
precedes the toggle in the issued command sequence. -/
theorem ntp_restart_precedes_toggle (co : List Char → Bool) (s : ntp_servers)
    (h : co timesyncdConf = true) :
    set_ntp_server co s
      = [Ev.write timesyncdConf (ntpContent s.server),
         Ev.cmd "systemctl stop systemd-timesyncd".data,
         Ev.cmd ("timedatectl set-ntp ".data
           ++ (if s.enabled then ['1'] else ['0']))] := by
  cases hs : s.enabled <;>
    simp [set_ntp_server, h, hs, vasystem]

/-- Witness for C3 at a concrete enabled NTP configuration. -/
theorem ntp_restart_precedes_toggle_w :
    set_ntp_server (fun _ => true) ⟨true, ["pool.ntp.org"]⟩
      = [Ev.write timesyncdConf (ntpContent ["pool.ntp.org"]),
         Ev.cmd "systemctl stop systemd-timesyncd".data,
         Ev.cmd "timedatectl set-ntp 1".data] :=
  ntp_restart_precedes_toggle (fun _ => true) ⟨true, ["pool.ntp.org"]⟩ rfl

/-- C4: when the target file fails to open, the NTP renderer aborts with no
side effects at all: no file content is written and no shell command (stop
or toggle) is issued. -/
theorem ntp_open_failure_no_effects (co : List Char → Bool) (s : ntp_servers)
    (h : co timesyncdConf = false) :
    set_ntp_server co s = [] := by
  simp [set_ntp_server, h]

/-- Witness for C4 with an always-failing open oracle. -/
theorem ntp_open_failure_no_effects_w :
    set_ntp_server (fun _ => false) ⟨true, ["pool.ntp.org"]⟩ = [] :=
  ntp_open_failure_no_effects (fun _ => false) ⟨true, ["pool.ntp.org"]⟩ rfl

/-- C10: the command string `vasystem` hands to the shell is the printf
expansion truncated to at most 1023 bytes: it always equals the first 1023
bytes of the expansion, its length never exceeds 1023 (the 1024-byte
buffer is never overrun), and an expansion that fits is executed
verbatim. -/
theorem vasystem_truncation (l : List Char) :
    vasystem l = l.take 1023
      ∧ (vasystem l).length ≤ 1023
      ∧ (l.length ≤ 1023 → vasystem l = l) := by
  refine ⟨rfl, ?_, ?_⟩
  · unfold vasystem
    rw [List.length_take]
    exact Nat.min_le_left _ _
  · intro h
    exact List.take_of_length_le h

/-- Witness for C10: a short command is executed verbatim. -/
theorem vasystem_truncation_w :
    vasystem "ip neigh flush nud permanent".data
      = "ip neigh flush nud permanent".data :=
  (vasystem_truncation "ip neigh flush nud permanent".data).2.2 (by decide)

end Cfgd

namespace Cfgd

/-! ### The NTP = line of the rendered timesyncd configuration -/

theorem spJoin_no_nl {servers : List String}
    (h : ∀ s ∈ servers, hasCh '\n' s.data = false) :
    hasCh '\n' (spJoin servers) = false := by
  induction servers with
  | nil => rfl
  | cons s r ih =>
    show hasCh '\n' (' ' :: (s.data ++ spJoin r)) = false
    simp only [hasCh, if_neg (by decide : ¬(' ' = '\n'))]
    rw [hasCh_append, h s (List.mem_cons_self s r),
      ih fun x hx => h x (List.mem_cons_of_mem _ hx)]
    rfl

theorem splitCh_pre_spJoin :
    ∀ (servers : List String) (pre : List Char), hasCh ' ' pre = false →
      (∀ s ∈ servers, hasCh ' ' s.data = false) →
      splitCh ' ' (pre ++ spJoin servers) = pre :: servers.map String.data := by
  intro servers
  induction servers with
  | nil =>
    intro pre hp _
    show splitCh ' ' (pre ++ []) = [pre]
    rw [List.append_nil]
    exact splitCh_no_sep hp
  | cons s r ih =>
    intro pre hp h
    have hs : hasCh ' ' s.data = false := h s (List.mem_cons_self s r)
    have hr := fun x hx => h x (List.mem_cons_of_mem _ hx)
    show splitCh ' ' (pre ++ (' ' :: (s.data ++ spJoin r)))
      = pre :: (s.data :: r.map String.data)
    rw [splitCh_append_no_sep hp _ (by rw [splitCh_cons_sep, ih s.data hs hr])]
    simp

theorem ntpContent_lines {servers : List String}
    (h1 : ∀ s ∈ servers, hasCh '\n' s.data = false) :
    splitCh '\n' (ntpContent servers)
      = ["# AUTOGENERATED BY cfgd v0.1".data, "[Time]".data,
         "NTP =".data ++ spJoin servers] := by
  have hS : hasCh '\n' (spJoin servers) = false := spJoin_no_nl h1
  have hX : splitCh '\n' ("NTP =".data ++ spJoin servers)
      = ["NTP =".data ++ spJoin servers] := by
    refine splitCh_no_sep ?_
    rw [hasCh_append, hS]
    decide
  have h2 : splitCh '\n'
      ("[Time]".data ++ '\n' :: ("NTP =".data ++ spJoin servers))
      = "[Time]".data :: ["NTP =".data ++ spJoin servers] := by
    rw [splitCh_append_no_sep (by decide) _ (by rw [splitCh_cons_sep, hX])]
    simp
  show splitCh '\n' ("# AUTOGENERATED BY cfgd v0.1".data
    ++ '\n' :: ("[Time]".data ++ '\n' :: ("NTP =".data ++ spJoin servers))) = _
  rw [splitCh_append_no_sep (by decide) _ (by rw [splitCh_cons_sep, h2])]
  simp

/-- C5: for every server list whose entries are free of newlines and
spaces, the rendered timesyncd file has exactly one line carrying the
`NTP =` clause, that line lists the servers space-prefixed in input order,
and tokenising it at spaces yields `NTP`, `=`, then the `N` servers in
input order (so an empty server list renders `NTP =` with no trailing
tokens). -/
theorem ntp_line_structure (servers : List String)
    (h1 : ∀ s ∈ servers, hasCh '\n' s.data = false)
    (h2 : ∀ s ∈ servers, hasCh ' ' s.data = false) :
    (splitCh '\n' (ntpContent servers)).filter
        (fun l => begL "NTP =".data l)
      = ["NTP =".data ++ spJoin servers]
    ∧ splitCh ' ' ("NTP =".data ++ spJoin servers)
      = "NTP".data :: "=".data :: servers.map String.data := by
  constructor
  · rw [ntpContent_lines h1]
    have hA : begL "NTP =".data "# AUTOGENERATED BY cfgd v0.1".data
        = false := rfl
    have hB : begL "NTP =".data "[Time]".data = false := rfl
    have hC : begL "NTP =".data ("NTP =".data ++ spJoin servers) = true :=
      begL_self_append _ _
    simp only [List.filter_cons, hA, hB, hC]
    simp
  · show splitCh ' ' ("NTP".data ++ ' ' :: ("=".data ++ spJoin servers)) = _
    rw [splitCh_append_no_sep (by decide) _
      (by rw [splitCh_cons_sep, splitCh_pre_spJoin servers "=".data (by decide) h2])]
    simp

/-- Witness for C5 at a concrete two-server list. -/
theorem ntp_line_structure_w :
    (splitCh '\n' (ntpContent ["time1.example", "time2.example"])).filter
        (fun l => begL "NTP =".data l)
      = ["NTP =".data ++ spJoin ["time1.example", "time2.example"]]
    ∧ splitCh ' ' ("NTP =".data ++ spJoin ["time1.example", "time2.example"])
      = "NTP".data :: "=".data
          :: ["time1.example", "time2.example"].map String.data :=
  ntp_line_structure ["time1.example", "time2.example"]
    (by decide) (by decide)

end Cfgd

namespace Cfgd

/-! ### SSH renderer no-op cases -/

/-- Counterexample to C2 as stated: for the fixed system identity "root"
the renderer performs no account lookup and no key-count check, so with an
empty key list (and an account data base in which no account exists at
all) it still truncate-writes the root authorized_keys file to empty. -/
theorem ssh_root_zero_keys_writes :
    set_ssh_keys (fun _ => none) (fun _ => true) "root" []
      = [Ev.write "/home/root/.ssh/authorized_keys".data []] := by decide

/-- C2 (amended): for every identity other than the two fixed system
identities "root" and "netconfd", a failed account lookup is a silent
no-op (no file written, no command issued), and an empty key list is
likewise a silent no-op. -/
theorem ssh_noop_cases (getpw : String → Option passwd) (co : List Char → Bool)
    (name : String) (list : List ssh_key)
    (h1 : name ≠ "root") (h2 : name ≠ "netconfd") :
    (getpw name = none → set_ssh_keys getpw co name list = [])
    ∧ (list = [] → set_ssh_keys getpw co name list = []) := by
  constructor
  · intro hg
    unfold set_ssh_keys
    rw [if_neg h1, if_neg h2, hg]
  · intro hl
    subst hl
    unfold set_ssh_keys
    rw [if_neg h1, if_neg h2]
    cases hg : getpw name with
    | none => rfl
    | some pw =>
      cases pw with
      | mk d =>
        cases d with
        | none => rfl
        | some dir => simp

/-- Witness for the amended C2 at a concrete unknown account. -/
theorem ssh_noop_cases_w :
    set_ssh_keys (fun _ => none) (fun _ => true) "alice" [] = [] :=
  (ssh_noop_cases (fun _ => none) (fun _ => true) "alice" []
    (by decide) (by decide)).1 rfl

/-! ### Static-neighbor command ordering -/

theorem replCmd_ne_flush (n : String) (e : ip_entry) :
    replCmd n e ≠ Ev.cmd flushNeighCmd := by
  intro h
  unfold replCmd at h
  injection h with h'
  have hL : List.take 10 (vasystem ("ip neigh replace ".data
      ++ e.address.data ++ " lladdr ".data ++ e.value.data
      ++ " nud permanent dev ".data ++ n.data)) = "ip neigh r".data := rfl
  rw [h'] at hL
  exact absurd hL (by decide)

theorem flush_not_mem_neighCmds (info : List interface) :
    Ev.cmd flushNeighCmd ∉ neighCmds info := by
  induction info with
  | nil => simp [neighCmds]
  | cons i r ih =>
    unfold neighCmds
    intro hm
    rcases List.mem_append.mp hm with h46 | hr
    · rcases List.mem_append.mp h46 with h4 | h6
      · obtain ⟨e, _, hc⟩ := List.mem_map.mp h4
        exact replCmd_ne_flush _ _ hc
      · obtain ⟨e, _, hc⟩ := List.mem_map.mp h6
        exact replCmd_ne_flush _ _ hc
    · exact ih hr

/-- C8: the command sequence of the static-neighbor renderer is exactly
the system-wide flush followed by the per-entry replace commands (for each
interface in order, its IPv4 entries then its IPv6 entries); the flush
occurs exactly once, at the head, so it strictly precedes every replace
command and no replace command is ever issued before it. -/
theorem neigh_flush_ordering (info : List interface) :
    set_if_neigh info = Ev.cmd flushNeighCmd :: neighCmds info
    ∧ Ev.cmd flushNeighCmd ∉ neighCmds info
    ∧ (set_if_neigh info).count (Ev.cmd flushNeighCmd) = 1 := by
  have hnm := flush_not_mem_neighCmds info
  refine ⟨rfl, hnm, ?_⟩
  show (Ev.cmd flushNeighCmd :: neighCmds info).count (Ev.cmd flushNeighCmd) = 1
  rw [List.count_cons, List.count_eq_zero.mpr hnm]
  simp

end Cfgd

namespace Cfgd

/-! ### Stale per-interface artifact files -/

theorem ifacePath_eq {name : String} (hlen : name.data.length ≤ 4066) :
    ifacePath name = netDir ++ name.data ++ ".network".data := by
  unfold ifacePath
  apply List.take_of_length_le
  rw [List.length_append, List.length_append]
  have h1 : netDir.length = 21 := rfl
  have h2 : ".network".data.length = 8 := rfl
  omega

theorem isGlobMatch_ifacePath {name : String}
    (h0 : name.data ≠ [])
    (hdot : name.data.head? ≠ some '.')
    (hslash : hasCh '/' name.data = false)
    (hlen : name.data.length ≤ 4066) :
    isGlobMatch (ifacePath name) = true := by
  rw [ifacePath_eq hlen, List.append_assoc]
  unfold isGlobMatch
  rw [begL_self_append, List.drop_left' (show netDir.length = 21 from rfl)]
  cases hnd : name.data with
  | nil => exact absurd hnd h0
  | cons c rest =>
    have hc : c ≠ '.' := by
      intro hcc
      rw [hnd, hcc] at hdot
      simp at hdot
    have hs2 : hasCh '/' (c :: rest) = false := by
      rw [← hnd]; exact hslash
    have hsl : hasCh '/' (c :: (rest ++ ".network".data)) = false := by
      rw [← List.cons_append, hasCh_append, hs2]
      decide
    rw [List.cons_append]
    simp only [baseOk]
    rw [if_neg hc, if_neg (show ¬(hasCh '/' (c :: (rest ++ ".network".data))
      = true) from by rw [hsl]; simp)]
    rw [← List.cons_append, endL_append_self]
    rfl

theorem ifaceLoop_preserves (co : List Char → Bool) (q : List Char) :
    ∀ (info : List interface) (fs : FS),
      (∀ i ∈ info, ifacePath i.name ≠ q) →
      runTrace fs (ifaceLoop co info) q = fs q := by
  intro info
  induction info with
  | nil =>
    intro fs _
    show runEv fs (Ev.cmd "systemctl reload-or-restart systemd-networkd".data)
      q = fs q
    simp only [runEv]
    rw [if_neg (by decide :
      ¬("systemctl reload-or-restart systemd-networkd".data = rmNetworksCmd))]
  | cons i rest ih =>
    intro fs h
    unfold ifaceLoop
    by_cases hco : co (ifacePath i.name) = true
    · rw [if_pos hco]
      show runTrace (runEv fs (Ev.write (ifacePath i.name) (ifaceContent i)))
        (ifaceLoop co rest) q = fs q
      rw [ih _ (fun j hj => h j (List.mem_cons_of_mem _ hj))]
      simp only [runEv]
      rw [if_neg (fun e => h i (List.mem_cons_self i rest) e.symm)]
    · rw [if_neg hco]
      rfl

/-- Counterexample to C7 as stated: with the empty interface name the first
run writes the artifact `/etc/systemd/network/.network`, a hidden file the
glob `*.network` of the delete command never matches, so a second
successful run over an interface list without that name leaves the stale
artifact in place. -/
theorem stale_dotfile_persists :
    runTrace (runTrace (fun _ => none)
        (set_if_addr (fun _ => true)
          [⟨"", false, ⟨0, [], [], false⟩, ⟨0, [], [], false⟩⟩]))
        (set_if_addr (fun _ => true) [])
        (ifacePath "") ≠ none := by decide

/-- C7 (amended): across two successive runs of the interface renderer, an
interface name present in the first list and absent from the second has no
artifact file after the second run, provided the name is glob-visible (it
is nonempty, does not begin with a dot, contains no slash) and neither it
nor any name of the second list overflows the PATH_MAX path buffer. -/
theorem stale_iface_artifact_removed (co : List Char → Bool)
    (info1 info2 : List interface) (fs : FS) (name : String)
    (_hmem : name ∈ info1.map interface.name)
    (habs : name ∉ info2.map interface.name)
    (_hok : ∀ i ∈ info2, co (ifacePath i.name) = true)
    (h0 : name.data ≠ [])
    (hdot : name.data.head? ≠ some '.')
    (hslash : hasCh '/' name.data = false)
    (hlen : name.data.length ≤ 4066)
    (hlen2 : ∀ i ∈ info2, i.name.data.length ≤ 4066) :
    runTrace (runTrace fs (set_if_addr co info1)) (set_if_addr co info2)
      (ifacePath name) = none := by
  have hglob : isGlobMatch (ifacePath name) = true :=
    isGlobMatch_ifacePath h0 hdot hslash hlen
  have hne : ∀ i ∈ info2, ifacePath i.name ≠ ifacePath name := by
    intro i hi heq
    apply habs
    rw [List.mem_map]
    refine ⟨i, hi, ?_⟩
    rw [ifacePath_eq (hlen2 i hi), ifacePath_eq hlen] at heq
    exact String.ext (List.append_cancel_left (List.append_cancel_right heq))
  show runTrace
    (runEv (runTrace fs (set_if_addr co info1)) (Ev.cmd rmNetworksCmd))
    (ifaceLoop co info2) (ifacePath name) = none
  rw [ifaceLoop_preserves co _ info2 _ hne]
  simp [runEv, hglob]

/-- Witness for the amended C7: a file for eth0 from the first run is gone
after a second run that only carries eth1. -/
theorem stale_iface_artifact_removed_w :
    runTrace (runTrace (fun _ => none)
        (set_if_addr (fun _ => true)
          [⟨"eth0", false, ⟨1500, [], [], false⟩, ⟨1500, [], [], false⟩⟩]))
        (set_if_addr (fun _ => true)
          [⟨"eth1", false, ⟨1500, [], [], false⟩, ⟨1500, [], [], false⟩⟩])
        (ifacePath "eth0") = none :=
  stale_iface_artifact_removed (fun _ => true) _ _ _ "eth0"
    (by decide) (by decide) (by decide) (by decide) (by decide) (by decide)
    (by decide) (by decide)

/-! ### Idempotence of a reconciliation pass -/

theorem runTrace_proj_or_const (t : List Ev) (q : List Char) :
    (∀ fs : FS, runTrace fs t q = fs q)
      ∨ (∃ v, ∀ fs : FS, runTrace fs t q = v) := by
  induction t with
  | nil => exact Or.inl fun fs => rfl
  | cons e rest ih =>
    have he : (∀ fs : FS, runEv fs e q = fs q)
        ∨ (∃ v, ∀ fs : FS, runEv fs e q = v) := by
      cases e with
      | write p c =>
        by_cases hq : q = p
        · exact Or.inr ⟨some c, fun fs => by simp [runEv, hq]⟩
        · exact Or.inl fun fs => by simp [runEv, hq]
      | cmd c =>
        by_cases hc : c = rmNetworksCmd
        · by_cases hg : isGlobMatch q = true
          · exact Or.inr ⟨none, fun fs => by simp [runEv, hc, hg]⟩
          · exact Or.inl fun fs => by simp [runEv, hc, hg]
        · exact Or.inl fun fs => by simp [runEv, hc]
    rcases ih with hproj | ⟨v, hconst⟩
    · rcases he with he1 | ⟨w, he2⟩
      · refine Or.inl fun fs => ?_
        show runTrace (runEv fs e) rest q = fs q
        rw [hproj (runEv fs e), he1 fs]
      · refine Or.inr ⟨w, fun fs => ?_⟩
        show runTrace (runEv fs e) rest q = w
        rw [hproj (runEv fs e), he2 fs]
    · exact Or.inr ⟨v, fun fs => hconst (runEv fs e)⟩

theorem runTrace_idem (t : List Ev) (fs : FS) :
    runTrace (runTrace fs t) t = runTrace fs t := by
  funext q
  rcases runTrace_proj_or_const t q with hproj | ⟨v, hconst⟩
  · rw [hproj (runTrace fs t), hproj fs]
  · rw [hconst (runTrace fs t), hconst fs]

/-- C9: applying the same snapshot twice in succession is idempotent: the
second reconciliation pass returns exactly the same pair of resulting
filesystem (byte-identical artifact files) and issued effect trace (the
same writes and shell/reload commands, in the same order) as the first;
no state accumulates between passes. -/
theorem snapshot_idempotent (getpw : String → Option passwd)
    (co : List Char → Bool) (cfg : ConfigSnapshot) (fs : FS) :
    applySnapshot getpw co cfg (applySnapshot getpw co cfg fs).1
      = applySnapshot getpw co cfg fs := by
  unfold applySnapshot
  rw [runTrace_idem]

end Cfgd
